import Mathlib

/-!
Shallow embedding of the spherical inverse action-angle engine
`actionAngleSphericalInverse` (galpy/actionAngle/actionAngleSphericalInverse.py).

Machine floats are modelled as exact rationals; the properties under study are
exact algebraic identities, assignments and order comparisons against fixed
tolerances, which are faithfully represented over `ℚ`.
-/

namespace ActionAngleSphericalInverse

/-- Product `amp·b` of the matching isochrone, `__init__` lines 209-214 (and the
scalar copy in `actionAngleSphericalInverseSingle.__init__`, lines 1689-1694):
`ampb = L² Ωz (Ωr − Ωz) / (2 Ωz − Ωr)²`. -/
def ampb (L2 Omegar Omegaz : ℚ) : ℚ :=
  L2 * Omegaz * (Omegar - Omegaz) / (2 * Omegaz - Omegar) ^ 2

/-- The construction raises `NotImplementedError` exactly when `ampb < 0`
(lines 215-218 and 1695-1698). -/
def construction_raises (L2 Omegar Omegaz : ℚ) : Bool :=
  decide (ampb L2 Omegar Omegaz < 0)

/-- `numpy.polynomial.polynomial.polyval` with coefficients in increasing
degree order. -/
def polyval (cs : List ℚ) (x : ℚ) : ℚ :=
  cs.foldr (fun c acc => c + x * acc) 0

/-- Auxiliary recursion for `polyder`. -/
def polyder_go : List ℚ → Nat → List ℚ
  | [], _ => []
  | c :: rest, n => (n : ℚ) * c :: polyder_go rest (n + 1)

/-- `numpy.polynomial.polynomial.polyder` (one derivative):
`[c0, c1, c2, ...] ↦ [c1, 2 c2, 3 c3, ...]`. -/
def polyder : List ℚ → List ℚ
  | [] => []
  | _ :: rest => polyder_go rest 1

/-- Hardcoded debug cubic stored by the default (`use_pointtransform=False`)
branch of `__init__` (lines 248-262): coefficient row (0, 1.3, 0, −0.3). -/
def debug_pt_coeffs : List ℚ := [0, 13/10, 0, -3/10]

/-- The derivative coefficient row stored alongside (lines 258-260):
(1.3, 0, −0.9). -/
def debug_pt_deriv_coeffs : List ℚ := [13/10, 0, -9/10]

/-- The linear coefficient row (0, 1, 0, …, 0) of length `d + 1`, as built by
`ccoeffs = numpy.zeros(pt_deg+1); ccoeffs[1] = 1.` (lines 490-491). -/
def linear_coeffs (d : Nat) : List ℚ :=
  (List.replicate (d + 1) (0 : ℚ)).set 1 1

/-- Stored coefficient row of `_setup_pointtransform` for one torus
(lines 399-521). The least-squares solver output is abstracted as `lsq`; the
code computes it (line 487) and then overwrites it with the fixed linear
`ccoeffs` (`coeffs = ccoeffs`, lines 502-504), so `lsq` is discarded. For
`jr < 1e-10` the identity row is stored directly (lines 400-408), which is the
same coefficient row. -/
def setup_pt_coeffs (pt_deg : Nat) (jr : ℚ) (lsq : List ℚ) : List ℚ :=
  if jr < 1 / 10 ^ 10 then linear_coeffs pt_deg
  else
    let _fit := lsq
    linear_coeffs pt_deg

/-- Dispatch of the point-transform setup in `__init__` (lines 236-262): the
fitted branch only runs for `use_pointtransform` and `pt_deg > 1`; otherwise
the debug cubic is stored. -/
def init_pt_coeffs (use_pointtransform : Bool) (pt_deg : Nat) (jr : ℚ)
    (lsq : List ℚ) : List ℚ :=
  if use_pointtransform && decide (1 < pt_deg) then setup_pt_coeffs pt_deg jr lsq
  else debug_pt_coeffs

/-- Clamp of a Newton update into [rperi, rap] (lines 650-653), upper bound
applied first as in the code. -/
def clamp_step (rperi rap x : ℚ) : ℚ :=
  if (if rap < x then rap else x) < rperi then rperi
  else if rap < x then rap else x

/-- First-half entry of the per-torus angle table built by `_create_rgrid`:
node 0 is fixed to `pt_rperi` and node `nta/2` to `pt_rap` (lines 579-580), and
both are excluded from the root-finding mask (lines 617-618); an interior node
holds the converged Newton output, abstracted by `solve`, every update of which
the code clamps into [rperi, rap]. -/
def rgrid_half (nta : Nat) (rperi rap ptrperi ptrap : ℚ) (solve : Nat → ℚ)
    (j : Nat) : ℚ :=
  if j = 0 then ptrperi
  else if j = nta / 2 then ptrap
  else clamp_step rperi rap (solve j)

/-- Full angle table of `_create_rgrid`: the upper half mirrors the lower half
(`rgrid[:, nta//2+1:] = rgrid[:, 1:nta//2][:, ::-1]`, line 746), so node `j`
with `j > nta/2` holds the value of node `nta − j`. -/
def rgrid_entry (nta : Nat) (rperi rap ptrperi ptrap : ℚ) (solve : Nat → ℚ)
    (j : Nat) : ℚ :=
  if j ≤ nta / 2 then rgrid_half nta rperi rap ptrperi ptrap solve j
  else rgrid_half nta rperi rap ptrperi ptrap solve (nta - j)

/-- `numpy.fabs`, written so that it evaluates by kernel reduction; it agrees
with `|·|` (lemma `rabs_eq_abs` below). -/
def rabs (x : ℚ) : ℚ := if x < 0 then -x else x

/-- One stored torus of the engine: `(self._jr[i], self._internal_Ls[i],
self._Omegar[i], self._Omegaz[i])`. -/
structure Torus where
  jr : ℚ
  L : ℚ
  Omegar : ℚ
  Omegaz : ℚ
deriving DecidableEq

/-- Failure modes of an evaluation call. -/
inductive EvalError where
  /-- the lookup `ValueError` of lines 1352-1358 / 1553-1559, fatal to the
  call only -/
  | lookupMiss
  /-- the interpolation branch is an empty stub (`else: pass`, lines 1375-1376
  and 1562-1563), so the locals read afterwards are unbound
  (`UnboundLocalError`) -/
  | unboundLocal
deriving DecidableEq

deriving instance DecidableEq for Except

/-- Value produced by `ts.getD` out of range (never reached on the paths the
theorems use). -/
def default_torus : Torus := ⟨0, 0, 0, 0⟩

/-- Auxiliary recursion for `nanargmin`: running first-minimising index. -/
def nanargmin_go (key : ℚ) : List ℚ → Nat → Nat → ℚ → Nat
  | [], _, best, _ => best
  | x :: rest, i, best, bestd =>
    if rabs (x - key) < bestd then nanargmin_go key rest (i + 1) i (rabs (x - key))
    else nanargmin_go key rest (i + 1) best bestd

/-- `numpy.nanargmin(numpy.fabs(xs - key))`: first index attaining the
minimum distance (NaN-free model). -/
def nanargmin (key : ℚ) : List ℚ → Nat
  | [] => 0
  | x :: rest => nanargmin_go key rest 1 0 (rabs (x - key))

/-- Torus lookup of `_xvFreqs` / `_Freqs` in non-interpolation mode
(lines 1350-1358 and 1551-1559): nearest torus in |Jr| alone, then the joint
1e-10 test on Jr and L (`_internal_Ls` and `_Ls` coincide in this mode,
lines 127-128). -/
def torus_lookup (jr L : ℚ) (ts : List Torus) : Except EvalError Nat :=
  let indx := nanargmin jr (ts.map Torus.jr)
  let t := ts.getD indx default_torus
  if 1 / 10 ^ 10 < rabs (jr - t.jr) ∨ 1 / 10 ^ 10 < rabs (L - t.L) then
    Except.error EvalError.lookupMiss
  else Except.ok indx

/-- Forward-computed per-torus quantities entering the refinement step. -/
structure FreqState where
  jr : ℚ
  Omegar : ℚ
  Omegaz : ℚ

/-- Per-torus quantities after the refinement step. -/
structure RefinedState where
  jr_orig : ℚ
  jr : ℚ
  Omegar_orig : ℚ
  Omegar : ℚ
  Omegaz : ℚ

/-- Mean of a list (`numpy.mean`; `nanmean` agrees in the NaN-free model). -/
def listMean (xs : List ℚ) : ℚ := xs.sum / (xs.length : ℚ)

/-- Lines 305-312 of `__init__`: the refined action is the angle-table mean of
`Jr^A`, the forward values are kept in `_orig` fields, `Ωr` is divided by the
mean of `∂Jr^A/∂Jr`, and `Ωz` is rebuilt as `OmegazoverOmegar * Ωr` where
`OmegazoverOmegar` was fixed at line 207 as the forward ratio `Ωz/Ωr`. -/
def torus_refine (s : FreqState) (jra djradjr : List ℚ) : RefinedState where
  jr_orig := s.jr
  jr := listMean jra
  Omegar_orig := s.Omegar
  Omegar := s.Omegar / listMean djradjr
  Omegaz := s.Omegaz / s.Omegar * (s.Omegar / listMean djradjr)

/-- Magnitude floor applied to a Fourier coefficient (lines 353-355). -/
def threshold (floor x : ℚ) : ℚ := if rabs x < floor then 0 else x

/-- Auxiliary recursion for `divByN`. -/
def divByN_go : List ℚ → Nat → List ℚ
  | [], _ => []
  | x :: rest, n => x / (n : ℚ) :: divByN_go rest (n + 1)

/-- Division of a coefficient row by the harmonic numbers 1..len
(`self._dSndJr /= numpy.atleast_2d(self._nforSn)[:, 1:]`, lines 356-357). -/
def divByN (xs : List ℚ) : List ℚ := divByN_go xs 1

/-- Lines 351-357 of `__init__`: the magnitude floors (1e-16 for `nSn`, 1e-15
for `dSndJr` and `dSndLish`) are applied only when `setup_interp` is true;
afterwards `dSndJr` and `dSndLish` are divided by the harmonic number. -/
def fourier_post (setup_interp : Bool) (nSn dSndJr dSndLish : List ℚ) :
    List ℚ × List ℚ × List ℚ :=
  ((if setup_interp then nSn.map (threshold (1 / 10 ^ 16)) else nSn),
   divByN (if setup_interp then dSndJr.map (threshold (1 / 10 ^ 15)) else dSndJr),
   divByN (if setup_interp then dSndLish.map (threshold (1 / 10 ^ 15)) else dSndLish))

/-- `numpy.sign` on rationals. -/
def sign (x : ℚ) : ℚ := if 0 < x then 1 else if x < 0 then -1 else 0

/-- `_Freqs` (lines 1550-1564): lookup of the torus, then the triple
`(Ωr, sign(Jφ)·Ωz, Ωz)`; with interpolation enabled the branch is `pass` and
the subsequent `return` reads unbound locals. -/
def Freqs (interp : Bool) (ts : List Torus) (jr jphi jz : ℚ) :
    Except EvalError (ℚ × ℚ × ℚ) :=
  if interp then Except.error EvalError.unboundLocal
  else
    match torus_lookup jr (jz + rabs jphi) ts with
    | Except.error e => Except.error e
    | Except.ok indx =>
      let t := ts.getD indx default_torus
      Except.ok (t.Omegar, sign jphi * t.Omegaz, t.Omegaz)

/-- Frequency components returned by `_xvFreqs` (lines 1349-1376, 1479-1490
and 1521): the same triple `(Ωr, sign(Jφ)·Ωz, Ωz)` in both the `point` and
non-`point` returns, after the same lookup; the interpolation branch is the
same empty stub. -/
def xvFreqs_freqs (interp : Bool) (ts : List Torus) (jr jphi jz : ℚ) :
    Except EvalError (ℚ × ℚ × ℚ) :=
  if interp then Except.error EvalError.unboundLocal
  else
    match torus_lookup jr (jz + rabs jphi) ts with
    | Except.error e => Except.error e
    | Except.ok indx =>
      let t := ts.getD indx default_torus
      Except.ok (t.Omegar, sign jphi * t.Omegaz, t.Omegaz)

/-! ### Theorems -/

/-- Claim C1 (code-bug evaluation): at the failing input L² = 1, Ωr = 1,
Ωz = 3/10 — so Ωz < Ωr/2, i.e. Ωz/Ωr outside (0.5, 1) — the guard quantity
`ampb` equals 21/16 > 0 and construction does not raise, contradicting the
claim and the code's own error message; the guard does fire for Ωz > Ωr
(shown at Ωz = 2). -/
theorem C1_guard_misses_low_ratio :
    ampb 1 1 (3/10) = 21/16 ∧
    construction_raises 1 1 (3/10) = false ∧
    construction_raises 1 1 2 = true := by
  refine ⟨by norm_num [ampb], by norm_num [construction_raises, ampb], ?_⟩
  norm_num [construction_raises, ampb]

/-- Claim C2 (code-bug evaluation): the point-transform row stored by the
default construction is the debug cubic (0, 1.3, 0, −0.3); it satisfies
P(0) = 0 and P(1) = 1, its stored derivative row is the true derivative, but
P′(0) = 1.3 and P′(1) = 2/5, both violating the 1e-8 tolerance on the
boundary conditions P′(0) = P′(1) = 1. -/
theorem C2_boundary_violated :
    polyval debug_pt_coeffs 0 = 0 ∧ polyval debug_pt_coeffs 1 = 1 ∧
    debug_pt_deriv_coeffs = polyder debug_pt_coeffs ∧
    polyval debug_pt_deriv_coeffs 0 = 13/10 ∧
    polyval debug_pt_deriv_coeffs 1 = 2/5 ∧
    ¬ |polyval debug_pt_deriv_coeffs 0 - 1| ≤ 1/10^8 ∧
    ¬ |polyval debug_pt_deriv_coeffs 1 - 1| ≤ 1/10^8 := by
  refine ⟨?_, ?_, ?_, ?_, ?_, ?_, ?_⟩ <;>
    norm_num [polyval, polyder, polyder_go, debug_pt_coeffs, debug_pt_deriv_coeffs,
      List.foldr, abs_le]

/-- Claim C3: the construction hardcodes the point transform regardless of the
fit. With `use_pointtransform=False` the stored row is the debug cubic
(0, 1.3, 0, −0.3) — not the identity, as witnessed at x = 1/2 — and with
`use_pointtransform=True` (pt_deg > 1) every orbit with Jr ≥ 1e-10 stores the
fixed linear row (0, 1, 0, …, 0), independent of the least-squares output. -/
theorem C3_debug_hardcode (pt_deg : Nat) (jr : ℚ) (lsq lsq2 : List ℚ)
    (hdeg : 1 < pt_deg) (hjr : 1 / 10 ^ 10 ≤ jr) :
    init_pt_coeffs false pt_deg jr lsq = [0, 13/10, 0, -3/10] ∧
    polyval (init_pt_coeffs false pt_deg jr lsq) (1/2) ≠ 1/2 ∧
    init_pt_coeffs true pt_deg jr lsq = linear_coeffs pt_deg ∧
    init_pt_coeffs true pt_deg jr lsq = init_pt_coeffs true pt_deg jr lsq2 := by
  have hnot : ¬ jr < 1 / 10 ^ 10 := not_lt.mpr hjr
  refine ⟨rfl, by norm_num [init_pt_coeffs, debug_pt_coeffs, polyval], ?_, ?_⟩ <;>
    simp [init_pt_coeffs, setup_pt_coeffs, hdeg, hnot]

/-- Witness for C3 at pt_deg = 7, jr = 1 and two distinct solver outputs. -/
theorem C3_debug_hardcode_witness :
    init_pt_coeffs false 7 1 [5] = [0, 13/10, 0, -3/10] ∧
    polyval (init_pt_coeffs false 7 1 [5]) (1/2) ≠ 1/2 ∧
    init_pt_coeffs true 7 1 [5] = linear_coeffs 7 ∧
    init_pt_coeffs true 7 1 [5] = init_pt_coeffs true 7 1 [9] :=
  C3_debug_hardcode 7 1 [5] [9] (by norm_num) (by norm_num)

/-- Claim C4 counterexample: node 0 of the angle table is assigned `pt_rperi`
(line 579), which differs from `rperi` whenever the point transform moves the
pericenter (the `use_pointtransform=True` branch, where `pt_rperi` is the
matching isochrone's own pericenter): with rperi = 1 and pt_rperi = 3/2 the
stored r(0) is 3/2, not rperi. -/
theorem C4_counterexample :
    rgrid_entry 8 1 2 (3/2) (9/5) (fun _ => 0) 0 = 3/2 ∧
    rgrid_entry 8 1 2 (3/2) (9/5) (fun _ => 0) 0 ≠ 1 := by
  norm_num [rgrid_entry, rgrid_half]

lemma clamp_step_mem (rperi rap x : ℚ) (h : rperi ≤ rap) :
    rperi ≤ clamp_step rperi rap x ∧ clamp_step rperi rap x ≤ rap := by
  unfold clamp_step
  split_ifs <;> constructor <;> linarith

lemma rgrid_half_mem (nta : Nat) (rperi rap : ℚ) (solve : Nat → ℚ) (j : Nat)
    (h : rperi ≤ rap) :
    rperi ≤ rgrid_half nta rperi rap rperi rap solve j ∧
    rgrid_half nta rperi rap rperi rap solve j ≤ rap := by
  unfold rgrid_half
  split_ifs
  · exact ⟨le_refl _, h⟩
  · exact ⟨h, le_refl _⟩
  · exact clamp_step_mem rperi rap (solve j) h

/-- Claim C4 amended: the table's node 0 holds `pt_rperi` and node `nta/2`
holds `pt_rap`, both assigned directly, independent of the root-finder output;
when `pt_rperi = rperi` and `pt_rap = rap` (as in the default
`use_pointtransform=False` construction) the endpoints equal rperi and rap
exactly and every node of the table lies in [rperi, rap]. -/
theorem C4_endpoints (nta : Nat) (rperi rap ptrperi ptrap : ℚ)
    (solve solve2 : Nat → ℚ) (j : Nat)
    (hnta : 2 ≤ nta) (hj : j < nta) (hr : rperi ≤ rap)
    (hpp : ptrperi = rperi) (hpa : ptrap = rap) :
    rgrid_entry nta rperi rap ptrperi ptrap solve 0 = rperi ∧
    rgrid_entry nta rperi rap ptrperi ptrap solve (nta / 2) = rap ∧
    rgrid_entry nta rperi rap ptrperi ptrap solve 0 =
      rgrid_entry nta rperi rap ptrperi ptrap solve2 0 ∧
    rgrid_entry nta rperi rap ptrperi ptrap solve (nta / 2) =
      rgrid_entry nta rperi rap ptrperi ptrap solve2 (nta / 2) ∧
    rperi ≤ rgrid_entry nta rperi rap ptrperi ptrap solve j ∧
    rgrid_entry nta rperi rap ptrperi ptrap solve j ≤ rap := by
  rw [hpp, hpa]
  have hhalf : nta / 2 ≠ 0 := by omega
  have e0 : ∀ s : Nat → ℚ, rgrid_entry nta rperi rap rperi rap s 0 = rperi := by
    intro s
    simp [rgrid_entry, rgrid_half]
  have ehalf : ∀ s : Nat → ℚ,
      rgrid_entry nta rperi rap rperi rap s (nta / 2) = rap := by
    intro s
    simp [rgrid_entry, rgrid_half, hhalf]
  have hbound : rperi ≤ rgrid_entry nta rperi rap rperi rap solve j ∧
      rgrid_entry nta rperi rap rperi rap solve j ≤ rap := by
    unfold rgrid_entry
    split_ifs
    · exact rgrid_half_mem nta rperi rap solve j hr
    · exact rgrid_half_mem nta rperi rap solve (nta - j) hr
  exact ⟨e0 solve, ehalf solve, (e0 solve).trans (e0 solve2).symm,
    (ehalf solve).trans (ehalf solve2).symm, hbound.1, hbound.2⟩

/-- Witness for C4 at nta = 8 with concrete turning points and solver output. -/
theorem C4_endpoints_witness :
    rgrid_entry 8 1 2 1 2 (fun i => (i : ℚ)) 0 = 1 ∧
    rgrid_entry 8 1 2 1 2 (fun i => (i : ℚ)) (8 / 2) = 2 ∧
    rgrid_entry 8 1 2 1 2 (fun i => (i : ℚ)) 0 =
      rgrid_entry 8 1 2 1 2 (fun _ => (7 : ℚ)) 0 ∧
    rgrid_entry 8 1 2 1 2 (fun i => (i : ℚ)) (8 / 2) =
      rgrid_entry 8 1 2 1 2 (fun _ => (7 : ℚ)) (8 / 2) ∧
    (1 : ℚ) ≤ rgrid_entry 8 1 2 1 2 (fun i => (i : ℚ)) 3 ∧
    rgrid_entry 8 1 2 1 2 (fun i => (i : ℚ)) 3 ≤ 2 :=
  C4_endpoints 8 1 2 1 2 (fun i => (i : ℚ)) (fun _ => (7 : ℚ)) 3
    (by norm_num) (by norm_num) (by norm_num) rfl rfl

/-- Claim C5: reflection symmetry of the stored table,
r(θ_j) = r(θ_{(nta−j) mod nta}) for every node, by the mirror assignment at
line 746. -/
theorem C5_reflection (nta : Nat) (rperi rap ptrperi ptrap : ℚ)
    (solve : Nat → ℚ) (j : Nat) (hj : j < nta) :
    rgrid_entry nta rperi rap ptrperi ptrap solve ((nta - j) % nta) =
      rgrid_entry nta rperi rap ptrperi ptrap solve j := by
  rcases Nat.eq_zero_or_pos j with h0 | hpos
  · subst h0
    simp [Nat.sub_zero, Nat.mod_self]
  · have hlt : nta - j < nta := by omega
    rw [Nat.mod_eq_of_lt hlt]
    unfold rgrid_entry
    split_ifs with h1 h2 h2
    · have hjj : nta - j = j := by omega
      rw [hjj]
    · rfl
    · have hjj : nta - (nta - j) = j := by omega
      rw [hjj]
    · omega

/-- Witness for C5 at nta = 8, node 3. -/
theorem C5_reflection_witness :
    rgrid_entry 8 1 2 1 2 (fun i => (i : ℚ)) ((8 - 3) % 8) =
      rgrid_entry 8 1 2 1 2 (fun i => (i : ℚ)) 3 :=
  C5_reflection 8 1 2 1 2 (fun i => (i : ℚ)) 3 (by norm_num)

lemma rabs_eq_abs (x : ℚ) : rabs x = |x| := by
  unfold rabs
  rcases lt_or_le x 0 with h | h
  · rw [if_pos h, abs_of_neg h]
  · rw [if_neg (not_lt.mpr h), abs_of_nonneg h]

lemma nanargmin_go_lt (key : ℚ) (xs : List ℚ) :
    ∀ i best : Nat, ∀ d : ℚ, best < i →
      nanargmin_go key xs i best d < i + xs.length := by
  induction xs with
  | nil =>
    intro i best d h
    simpa [nanargmin_go] using h
  | cons x rest ih =>
    intro i best d h
    simp only [nanargmin_go, List.length_cons]
    split
    · have := ih (i + 1) i (rabs (x - key)) (Nat.lt_succ_self i)
      omega
    · have := ih (i + 1) best d (Nat.lt_succ_of_lt h)
      omega

lemma nanargmin_lt_length (key : ℚ) (xs : List ℚ) (h : xs ≠ []) :
    nanargmin key xs < xs.length := by
  match xs with
  | [] => exact absurd rfl h
  | x :: rest =>
    have := nanargmin_go_lt key rest 1 0 (rabs (x - key)) Nat.one_pos
    simp only [nanargmin, List.length_cons]
    omega

/-- Claim C6 counterexample: with stored tori (Jr, L) = (0, 2) and (1e-11, 3),
the query Jr = 1e-11, L = 2 matches the first torus within 1e-10 in both
actions, yet the lookup raises, because the argmin over |Jr| alone selects the
second torus, whose L fails the test. -/
theorem C6_counterexample :
    rabs ((1/10^11 : ℚ) - (Torus.mk 0 2 1 1).jr) ≤ 1/10^10 ∧
    rabs ((2 : ℚ) - (Torus.mk 0 2 1 1).L) ≤ 1/10^10 ∧
    Torus.mk 0 2 1 1 ∈ [Torus.mk 0 2 1 1, Torus.mk (1/10^11) 3 1 1] ∧
    torus_lookup (1/10^11) 2 [Torus.mk 0 2 1 1, Torus.mk (1/10^11) 3 1 1] =
      Except.error EvalError.lookupMiss := by
  refine ⟨by norm_num [rabs], by norm_num [rabs], by simp, ?_⟩
  norm_num [torus_lookup, nanargmin, nanargmin_go, default_torus, rabs]

/-- Claim C6 amended: with interpolation disabled the lookup raises exactly
when the torus nearest in |Jr| fails the joint 1e-10 test on (Jr, L): a
successful call returns a torus matching both tolerances, and an error is
certain when no stored torus matches Jr within 1e-10 — but a torus matching
both may exist while the call still errors (see the counterexample). The
lookup is a pure function of the immutable tables, so a miss is fatal to that
call only. -/
theorem C6_lookup (jr L : ℚ) (ts : List Torus) (i : Nat) (hne : ts ≠ []) :
    (torus_lookup jr L ts = Except.ok i →
      rabs (jr - (ts.getD i default_torus).jr) ≤ 1/10^10 ∧
      rabs (L - (ts.getD i default_torus).L) ≤ 1/10^10) ∧
    ((∀ t ∈ ts, 1/10^10 < rabs (jr - t.jr)) →
      torus_lookup jr L ts = Except.error EvalError.lookupMiss) := by
  constructor
  · intro h
    simp only [torus_lookup] at h
    by_cases hcond :
        1 / 10 ^ 10 <
            rabs (jr - (ts.getD (nanargmin jr (ts.map Torus.jr)) default_torus).jr) ∨
          1 / 10 ^ 10 <
            rabs (L - (ts.getD (nanargmin jr (ts.map Torus.jr)) default_torus).L)
    · rw [if_pos hcond] at h
      exact Except.noConfusion h
    · rw [if_neg hcond] at h
      push_neg at hcond
      have hi : nanargmin jr (ts.map Torus.jr) = i := by
        simpa using h
      rw [hi] at hcond
      exact hcond
  · intro hall
    have hlen : nanargmin jr (ts.map Torus.jr) < ts.length := by
      have hmne : (ts.map Torus.jr) ≠ [] := by
        simpa using hne
      simpa using nanargmin_lt_length jr (ts.map Torus.jr) hmne
    have hmem : ts.getD (nanargmin jr (ts.map Torus.jr)) default_torus ∈ ts := by
      rw [List.getD_eq_getElem ts default_torus hlen]
      exact List.getElem_mem hlen
    simp only [torus_lookup]
    rw [if_pos (Or.inl (hall _ hmem))]

/-- Witness for C6: a single far-away torus makes the lookup error, applied
through the amended theorem. -/
theorem C6_lookup_witness :
    torus_lookup 5 0 [Torus.mk 0 2 1 1] = Except.error EvalError.lookupMiss :=
  (C6_lookup 5 0 [Torus.mk 0 2 1 1] 0 (by simp)).2 (by norm_num [rabs])

/-- Claim C7: the refinement step stores mean(Jr^A) as the engine's Jr, keeps
the forward values in the `_orig` fields, divides Ωr by mean(∂Jr^A/∂Jr), and
rescales Ωz by the same factor through the fixed ratio Ωz/Ωr. -/
theorem C7_refined_actions_freqs (s : FreqState) (jra djradjr : List ℚ)
    (hOr : s.Omegar ≠ 0) :
    (torus_refine s jra djradjr).jr = listMean jra ∧
    (torus_refine s jra djradjr).jr_orig = s.jr ∧
    (torus_refine s jra djradjr).Omegar = s.Omegar / listMean djradjr ∧
    (torus_refine s jra djradjr).Omegar_orig = s.Omegar ∧
    (torus_refine s jra djradjr).Omegaz = s.Omegaz / listMean djradjr ∧
    (torus_refine s jra djradjr).Omegaz =
      s.Omegaz / s.Omegar * (torus_refine s jra djradjr).Omegar := by
  refine ⟨rfl, rfl, rfl, rfl, ?_, rfl⟩
  show s.Omegaz / s.Omegar * (s.Omegar / listMean djradjr)
      = s.Omegaz / listMean djradjr
  rcases eq_or_ne (listMean djradjr) 0 with hm | hm
  · simp [hm]
  · field_simp

/-- Witness for C7 with concrete forward state and tables. -/
theorem C7_refined_witness :
    (torus_refine ⟨1, 2, 3⟩ [1, 2] [2, 4]).jr = listMean [1, 2] ∧
    (torus_refine ⟨1, 2, 3⟩ [1, 2] [2, 4]).jr_orig = (1 : ℚ) ∧
    (torus_refine ⟨1, 2, 3⟩ [1, 2] [2, 4]).Omegar = 2 / listMean [2, 4] ∧
    (torus_refine ⟨1, 2, 3⟩ [1, 2] [2, 4]).Omegar_orig = (2 : ℚ) ∧
    (torus_refine ⟨1, 2, 3⟩ [1, 2] [2, 4]).Omegaz = 3 / listMean [2, 4] ∧
    (torus_refine ⟨1, 2, 3⟩ [1, 2] [2, 4]).Omegaz =
      3 / 2 * (torus_refine ⟨1, 2, 3⟩ [1, 2] [2, 4]).Omegar :=
  C7_refined_actions_freqs ⟨1, 2, 3⟩ [1, 2] [2, 4] (by norm_num)

lemma fourier_post_true (nSn dSndJr dSndLish : List ℚ) :
    fourier_post true nSn dSndJr dSndLish =
      (nSn.map (threshold (1 / 10 ^ 16)),
       divByN (dSndJr.map (threshold (1 / 10 ^ 15))),
       divByN (dSndLish.map (threshold (1 / 10 ^ 15)))) := rfl

lemma getD_map_threshold (fl : ℚ) (xs : List ℚ) (i : Nat) :
    (xs.map (threshold fl)).getD i 0 = threshold fl (xs.getD i 0) := by
  induction xs generalizing i with
  | nil => simp [threshold, rabs]
  | cons x rest ih =>
    cases i with
    | zero => simp
    | succ k => simpa using ih k

lemma divByN_go_getD (xs : List ℚ) :
    ∀ n i : Nat, (divByN_go xs n).getD i 0 = xs.getD i 0 / ((n + i : Nat) : ℚ) := by
  induction xs with
  | nil => intro n i; simp [divByN_go]
  | cons x rest ih =>
    intro n i
    cases i with
    | zero => simp [divByN_go]
    | succ k =>
      have harith : n + 1 + k = n + (k + 1) := by omega
      have := ih (n + 1) k
      rw [harith] at this
      simpa [divByN_go] using this

/-- Claim C8 counterexample: with `setup_interp=False` (the explicit (E,L)-list
construction) no zeroing occurs: the coefficient 1e-17, although below the
claimed 1e-16 floor, is returned unchanged. -/
theorem C8_counterexample :
    fourier_post false [1/10^17] [1/10^16] [1/10^16] =
      ([1/10^17], [1/10^16], [1/10^16]) ∧
    rabs (1/10^17 : ℚ) < 1/10^16 ∧ (1/10^17 : ℚ) ≠ 0 := by
  refine ⟨?_, by norm_num [rabs], by norm_num⟩
  norm_num [fourier_post, divByN, divByN_go]

/-- Claim C8 amended: only when `setup_interp=True` are extracted coefficients
below the fixed floors (1e-16 for nSn, 1e-15 for dSn/dJr and dSn/dL) set to
exactly zero before the division by the harmonic number; the zero survives the
division, so the corresponding output entries are exactly zero. -/
theorem C8_floor_only_interp (nSn dSndJr dSndLish : List ℚ) (i : Nat)
    (hn : rabs (nSn.getD i 0) < 1/10^16)
    (hj : rabs (dSndJr.getD i 0) < 1/10^15)
    (hl : rabs (dSndLish.getD i 0) < 1/10^15) :
    (fourier_post true nSn dSndJr dSndLish).1.getD i 0 = 0 ∧
    (fourier_post true nSn dSndJr dSndLish).2.1.getD i 0 = 0 ∧
    (fourier_post true nSn dSndJr dSndLish).2.2.getD i 0 = 0 := by
  rw [fourier_post_true]
  refine ⟨?_, ?_, ?_⟩
  · rw [getD_map_threshold]
    unfold threshold
    rw [if_pos hn]
  · show (divByN (dSndJr.map (threshold (1 / 10 ^ 15)))).getD i 0 = 0
    rw [divByN, divByN_go_getD, getD_map_threshold]
    unfold threshold
    rw [if_pos hj, zero_div]
  · show (divByN (dSndLish.map (threshold (1 / 10 ^ 15)))).getD i 0 = 0
    rw [divByN, divByN_go_getD, getD_map_threshold]
    unfold threshold
    rw [if_pos hl, zero_div]

/-- Witness for C8 with concrete sub-floor coefficient rows. -/
theorem C8_floor_witness :
    (fourier_post true [1/10^17] [1/10^16] [0]).1.getD 0 0 = 0 ∧
    (fourier_post true [1/10^17] [1/10^16] [0]).2.1.getD 0 0 = 0 ∧
    (fourier_post true [1/10^17] [1/10^16] [0]).2.2.getD 0 0 = 0 :=
  C8_floor_only_interp [1/10^17] [1/10^16] [0] 0
    (by norm_num [rabs]) (by norm_num [rabs]) (by norm_num [rabs])

/-- Claim C9: for an engine constructed with `setup_interp=True` (so
`self._interp` is true), every call to the frequency API or to the
frequency-returning evaluation path reaches the empty interpolation stub
(`else: pass`) and fails with the unbound-locals error, for all actions,
never returning a frequency triple. -/
theorem C9_interp_stub (ts : List Torus) (jr jphi jz : ℚ) :
    Freqs true ts jr jphi jz = Except.error EvalError.unboundLocal ∧
    xvFreqs_freqs true ts jr jphi jz = Except.error EvalError.unboundLocal ∧
    (∀ f : ℚ × ℚ × ℚ, Freqs true ts jr jphi jz ≠ Except.ok f) ∧
    (∀ f : ℚ × ℚ × ℚ, xvFreqs_freqs true ts jr jphi jz ≠ Except.ok f) := by
  refine ⟨rfl, rfl, ?_, ?_⟩ <;>
  · intro f h
    exact Except.noConfusion h

lemma freq_triple_ok (r : Except EvalError Nat) (ts : List Torus)
    (jphi : ℚ) (omr omp omz : ℚ)
    (h : (match r with
          | Except.error e => (Except.error e : Except EvalError (ℚ × ℚ × ℚ))
          | Except.ok indx =>
            let t := ts.getD indx default_torus
            Except.ok (t.Omegar, sign jphi * t.Omegaz, t.Omegaz)) =
        Except.ok (omr, omp, omz)) :
    omp = sign jphi * omz := by
  cases r with
  | error e => exact Except.noConfusion h
  | ok indx =>
    simp only [Except.ok.injEq, Prod.mk.injEq] at h
    obtain ⟨-, h2, h3⟩ := h
    rw [← h2, ← h3]

/-- Claim C10: every successful frequency return, from the frequencies API and
from the frequency-returning evaluation path alike, has azimuthal frequency
Ωφ = sign(Jφ)·Ωz; in particular Ωφ = 0 whenever Jφ = 0. -/
theorem C10_azimuthal_freq (interp : Bool) (ts : List Torus)
    (jr jphi jz omr omp omz : ℚ)
    (h : Freqs interp ts jr jphi jz = Except.ok (omr, omp, omz) ∨
         xvFreqs_freqs interp ts jr jphi jz = Except.ok (omr, omp, omz)) :
    omp = sign jphi * omz ∧ (jphi = 0 → omp = 0) := by
  have main : omp = sign jphi * omz := by
    rcases h with h | h
    · unfold Freqs at h
      split_ifs at h
      exact freq_triple_ok _ ts jphi omr omp omz h
    · unfold xvFreqs_freqs at h
      split_ifs at h
      exact freq_triple_ok _ ts jphi omr omp omz h
  refine ⟨main, fun h0 => ?_⟩
  rw [main, h0]
  simp [sign]

/-- Witness for C10: a stored torus with Ωz = 4 queried at Jφ = 2 returns
Ωφ = sign(2)·4 = 4. -/
theorem C10_azimuthal_freq_witness :
    (4 : ℚ) = sign 2 * 4 ∧ ((2 : ℚ) = 0 → (4 : ℚ) = 0) :=
  C10_azimuthal_freq false [Torus.mk 1 2 3 4] 1 2 0 3 4 4
    (Or.inl (by norm_num [Freqs, torus_lookup, nanargmin, nanargmin_go, default_torus,
      rabs, sign]))

end ActionAngleSphericalInverse

